import Mathlib

/-!
Verification of the color-quantization core of `Driver.cpp` from the
green-screen-opencv repository: the histogram builder
(`createColorHistogram`), the dominant-color locator (`findMostCommonColor`),
the color substituter (`replaceMostCommonColor`) and their composition
(`createOverlayImage`).  Images are modelled as a dimension pair together
with a total pixel function; the `cv::Mat` loops become folds over the
coordinate lists the C++ loops visit.
-/

namespace Driver

/-- Grid size: 4 buckets per channel (`SIZE` in Driver.cpp, line 8). -/
def SIZE : Nat := 4

/-- Bucket width `BUCKET_SIZE = 256 / SIZE = 64` (Driver.cpp, line 9). -/
def BUCKET_SIZE : Nat := 256 / SIZE

/-- One pixel: a value per color channel.  Driver.cpp reads the channels of a
`Vec3b` through the index constants `RED_PIX = 2`, `GREEN_PIX = 1`,
`BLUE_PIX = 0`; the storage layout is irrelevant to the algorithms, so the
three channel values are named fields.  Channel values are `Nat`; the
`wellFormed` predicate below expresses the 8-bit range of `uchar`. -/
structure Pixel where
  red : Nat
  green : Nat
  blue : Nat
deriving DecidableEq

/-- An image: a grid of pixels.  `pix` is total; only the values at
coordinates inside `rows × cols` are meaningful. -/
@[ext]
structure Image where
  rows : Nat
  cols : Nat
  pix : Nat → Nat → Pixel

/-- Every pixel of the image has 8-bit channel values, as the `uchar`
channels of `Vec3b` do in the source. -/
def wellFormed (img : Image) : Prop :=
  ∀ i j, i < img.rows → j < img.cols →
    (img.pix i j).red < 256 ∧ (img.pix i j).green < 256 ∧ (img.pix i j).blue < 256

/-- Coordinates visited by the row/column loops shared by
`createColorHistogram` (lines 104-105) and `replaceMostCommonColor`
(lines 175-176): `row` runs over `[0, rows - 1)` and `col` over
`[0, cols - 1)` — the loop bounds `image.rows - 1` and `image.cols - 1` are
verbatim from the source.  In C++ `rows - 1` is `-1` for an empty image and
the body never runs; `Nat` subtraction `0 - 1 = 0` gives the same empty
range. -/
def scannedCoords (img : Image) : List (Nat × Nat) :=
  (List.range (img.rows - 1)).flatMap fun i =>
    (List.range (img.cols - 1)).map fun j => (i, j)

/-- A histogram: the cell count at each bucket triple.  The `cv::Mat`
histogram has exactly `SIZE × SIZE × SIZE` cells; here the support outside
that grid is provably empty for 8-bit images. -/
abbrev Histogram := Nat → Nat → Nat → Nat

/-- The zero-initialized histogram (`Scalar::all(0)`, line 103). -/
def emptyHist : Histogram := fun _ _ _ => 0

/-- One `hist.at<int>(r, g, b)++` update (line 109). -/
def histIncr (h : Histogram) (r g b : Nat) : Histogram := fun i j k =>
  if i = r ∧ j = g ∧ k = b then h i j k + 1 else h i j k

/-- Loop body of `createColorHistogram` (lines 106-109): quantize each
channel by integer division by `BUCKET_SIZE` and bump that cell. -/
def countPixel (h : Histogram) (p : Pixel) : Histogram :=
  histIncr h (p.red / BUCKET_SIZE) (p.green / BUCKET_SIZE) (p.blue / BUCKET_SIZE)

/-- `createColorHistogram` (Driver.cpp lines 101-113): start from the
zero-initialized histogram and bump one cell per scanned pixel. -/
def createColorHistogram (image : Image) : Histogram :=
  (scannedCoords image).foldl (fun h c => countPixel h (image.pix c.1 c.2)) emptyHist

/-- The 64 histogram cells in the scan order of `findMostCommonColor`
(lines 147-149): outer loop red bucket, middle green, inner blue. -/
def allCells : List (Nat × Nat × Nat) :=
  (List.range SIZE).flatMap fun i =>
    (List.range SIZE).flatMap fun j =>
      (List.range SIZE).map fun k => (i, j, k)

/-- The count stored at a cell triple. -/
def cellVal (h : Histogram) (c : Nat × Nat × Nat) : Nat := h c.1 c.2.1 c.2.2

/-- Loop state of `findMostCommonColor`: the out-parameters `r`, `g`, `b`
and the local `highestValue`. -/
structure ScanState where
  r : Nat
  g : Nat
  b : Nat
  highestValue : Nat
deriving DecidableEq

/-- Loop body of `findMostCommonColor` (lines 150-155): on a strictly
greater count, record the cell indices and the new highest count. -/
def scanStep (h : Histogram) (s : ScanState) (c : Nat × Nat × Nat) : ScanState :=
  if s.highestValue < cellVal h c then ⟨c.1, c.2.1, c.2.2, cellVal h c⟩ else s

/-- The state the scan starts from when the incoming out-parameter values
form the triple `b0`: `highestValue` is initialized to cell `(0,0,0)`
(line 146); used with `b0 = (0,0,0)` this equals the start state of the
composed program. -/
def initScan (h : Histogram) (b0 : Nat × Nat × Nat) : ScanState :=
  ⟨b0.1, b0.2.1, b0.2.2, cellVal h b0⟩

/-- The best-so-far cell triple held in a scan state. -/
def bestOf (s : ScanState) : Nat × Nat × Nat := (s.r, s.g, s.b)

/-- `findMostCommonColor` (Driver.cpp lines 145-163).  In the source `r`,
`g`, `b` are reference out-parameters whose incoming values survive when no
cell strictly beats `hist.at<int>(0,0,0)`; they are modelled as explicit
arguments (`createOverlayImage`, lines 127-132, passes `0, 0, 0`).  The
result is `index * BUCKET_SIZE + BUCKET_SIZE / 2` per channel
(lines 160-162). -/
def findMostCommonColor (r g b : Nat) (h : Histogram) : Nat × Nat × Nat :=
  let s := allCells.foldl (scanStep h) ⟨r, g, b, h 0 0 0⟩
  (s.r * BUCKET_SIZE + BUCKET_SIZE / 2,
   s.g * BUCKET_SIZE + BUCKET_SIZE / 2,
   s.b * BUCKET_SIZE + BUCKET_SIZE / 2)

/-- The condition of lines 177-182: per channel, `pixel - BUCKET_SIZE <= c`
and `pixel + BUCKET_SIZE >= c`.  The C++ comparison happens after integral
promotion of the `uchar` channel to `int`, so it is stated over `Int`. -/
abbrev matchesColor (p : Pixel) (r g b : Nat) : Prop :=
  ((p.red : Int) - (BUCKET_SIZE : Int) ≤ (r : Int) ∧
    (r : Int) ≤ (p.red : Int) + (BUCKET_SIZE : Int)) ∧
  ((p.green : Int) - (BUCKET_SIZE : Int) ≤ (g : Int) ∧
    (g : Int) ≤ (p.green : Int) + (BUCKET_SIZE : Int)) ∧
  ((p.blue : Int) - (BUCKET_SIZE : Int) ≤ (b : Int) ∧
    (b : Int) ≤ (p.blue : Int) + (BUCKET_SIZE : Int))

/-- Overwrite one target pixel (lines 183-185).  The three channel writes of
the source touch the single pixel `(i, j)` and are modelled as one pixel
write. -/
def writePix (img : Image) (i j : Nat) (p : Pixel) : Image :=
  { img with pix := fun i2 j2 => if i2 = i ∧ j2 = j then p else img.pix i2 j2 }

/-- Loop body of `replaceMostCommonColor` (lines 177-186): if the pixel at
`c` is within `BUCKET_SIZE` of the dominant color in every channel, replace
it by the replacement pixel at the wrapped coordinate
`(row % replacement.rows, col % replacement.cols)`. -/
def substStep (r g b : Nat) (replacement : Image) (img : Image) (c : Nat × Nat) : Image :=
  if matchesColor (img.pix c.1 c.2) r g b then
    writePix img c.1 c.2 (replacement.pix (c.1 % replacement.rows) (c.2 % replacement.cols))
  else img

/-- `replaceMostCommonColor` (Driver.cpp lines 174-189): fold the loop body
over the scanned coordinates of the target. -/
def replaceMostCommonColor (r g b : Nat) (target replacement : Image) : Image :=
  (scannedCoords target).foldl (substStep r g b replacement) target

/-- `createOverlayImage` (Driver.cpp lines 126-135): clone the foreground,
build its histogram, run the locator on the zero-initialized out-parameters,
and substitute in place of the clone.  Cloning is value copying in this pure
model. -/
def createOverlayImage (foreground background : Image) : Image :=
  let mc := findMostCommonColor 0 0 0 (createColorHistogram foreground)
  replaceMostCommonColor mc.1 mc.2.1 mc.2.2 foreground background

/-- Guard-instrumented loop body: identical to `substStep` except that it
signals `none` when a substitution is about to take `%` with a zero divisor.
The source (lines 183-185) computes `i % replacement.rows` and
`j % replacement.cols` with no guard, so a zero-area replacement makes the
C++ operation undefined exactly where this returns `none`. -/
def substStepChecked (r g b : Nat) (replacement : Image) (acc : Option Image)
    (c : Nat × Nat) : Option Image :=
  acc.bind fun img =>
    if matchesColor (img.pix c.1 c.2) r g b then
      if replacement.rows = 0 ∨ replacement.cols = 0 then none
      else some (writePix img c.1 c.2
        (replacement.pix (c.1 % replacement.rows) (c.2 % replacement.cols)))
    else some img

/-- `replaceMostCommonColor` with the zero-divisor instrumentation. -/
def replaceMostCommonColorChecked (r g b : Nat) (target replacement : Image) : Option Image :=
  (scannedCoords target).foldl (substStepChecked r g b replacement) (some target)

/-- Sum of the counts of all 64 histogram cells. -/
def histSum (h : Histogram) : Nat := (allCells.map (cellVal h)).sum

/-- Concrete image: 2×2, every pixel `(32,32,32)`. -/
def tgtSolid32 : Image := ⟨2, 2, fun _ _ => ⟨32, 32, 32⟩⟩

/-- Concrete image: 1×1 with the single pixel `(32,32,32)`. -/
def tgtOne32 : Image := ⟨1, 1, fun _ _ => ⟨32, 32, 32⟩⟩

/-- Concrete image: 1×1 with the single pixel `(5,5,5)`. -/
def repOne5 : Image := ⟨1, 1, fun _ _ => ⟨5, 5, 5⟩⟩

/-- Concrete image: 1×1 with the single pixel `(0,0,0)`. -/
def repOne0 : Image := ⟨1, 1, fun _ _ => ⟨0, 0, 0⟩⟩

/-- Concrete image: 1×1 with the single pixel `(200,200,200)`. -/
def repFar200 : Image := ⟨1, 1, fun _ _ => ⟨200, 200, 200⟩⟩

/-- Concrete image with zero area. -/
def repZero : Image := ⟨0, 0, fun _ _ => ⟨0, 0, 0⟩⟩

/-- Concrete image: 2×2, every pixel `(10,10,10)`. -/
def imgTen : Image := ⟨2, 2, fun _ _ => ⟨10, 10, 10⟩⟩

/-- Concrete image: the 2×2 example of the spec, row-major pixels
`(10,10,10), (10,10,10), (200,200,200), (0,0,0)`. -/
def imgExample : Image :=
  ⟨2, 2, fun i j =>
    if i = 0 then ⟨10, 10, 10⟩ else if j = 0 then ⟨200, 200, 200⟩ else ⟨0, 0, 0⟩⟩

/-- Concrete image: a single row of three `(7,7,7)` pixels. -/
def fgThin : Image := ⟨1, 3, fun _ _ => ⟨7, 7, 7⟩⟩

theorem mem_scannedCoords (img : Image) (i j : Nat) :
    (i, j) ∈ scannedCoords img ↔ i < img.rows - 1 ∧ j < img.cols - 1 := by
  simp only [scannedCoords, List.mem_flatMap, List.mem_map, List.mem_range]
  constructor
  · rintro ⟨a, ha, b, hb, rfl, rfl⟩
    exact ⟨ha, hb⟩
  · rintro ⟨hi, hj⟩
    exact ⟨i, hi, j, hj, rfl⟩

theorem scannedCoords_nodup (img : Image) : (scannedCoords img).Nodup := by
  unfold scannedCoords
  refine List.nodup_flatMap.mpr ⟨?_, ?_⟩
  · intro i _
    exact (List.nodup_range _).map (fun a b hab => (Prod.mk.inj hab).2)
  · refine List.Pairwise.imp ?_ (List.nodup_range _)
    intro a b hab x hxa hxb
    simp only [List.mem_map, List.mem_range] at hxa hxb
    obtain ⟨ja, _, rfl⟩ := hxa
    obtain ⟨jb, _, hx⟩ := hxb
    exact hab ((Prod.mk.inj hx).1).symm

theorem scannedCoords_length (img : Image) :
    (scannedCoords img).length = (img.rows - 1) * (img.cols - 1) := by
  simp only [scannedCoords, List.length_flatMap, Function.comp_def, List.length_map,
    List.length_range, List.map_const', List.sum_replicate, smul_eq_mul]

theorem mem_allCells (c : Nat × Nat × Nat) :
    c ∈ allCells ↔ c.1 < 4 ∧ c.2.1 < 4 ∧ c.2.2 < 4 := by
  obtain ⟨i, j, k⟩ := c
  simp only [allCells, SIZE, List.mem_flatMap, List.mem_map, List.mem_range]
  constructor
  · rintro ⟨a, ha, b, hb, d, hd, rfl, rfl, rfl⟩
    exact ⟨ha, hb, hd⟩
  · rintro ⟨hi, hj, hk⟩
    exact ⟨i, hi, j, hj, k, hk, rfl⟩

theorem allCells_nodup : allCells.Nodup := by decide

theorem BUCKET_SIZE_eq : BUCKET_SIZE = 64 := rfl

theorem histFold_apply (img : Image) (l : List (Nat × Nat)) (h : Histogram) (i j k : Nat) :
    (l.foldl (fun hh c => countPixel hh (img.pix c.1 c.2)) h) i j k =
      h i j k + l.countP (fun c =>
        decide (i = (img.pix c.1 c.2).red / BUCKET_SIZE ∧
                j = (img.pix c.1 c.2).green / BUCKET_SIZE ∧
                k = (img.pix c.1 c.2).blue / BUCKET_SIZE)) := by
  induction l generalizing h with
  | nil => simp
  | cons c l ih =>
    rw [List.foldl_cons, ih, List.countP_cons]
    simp only [countPixel, histIncr, decide_eq_true_eq]
    by_cases hc : i = (img.pix c.1 c.2).red / BUCKET_SIZE ∧
        j = (img.pix c.1 c.2).green / BUCKET_SIZE ∧
        k = (img.pix c.1 c.2).blue / BUCKET_SIZE
    · rw [if_pos hc, if_pos hc]
      omega
    · rw [if_neg hc, if_neg hc]
      omega

theorem createColorHistogram_apply (img : Image) (i j k : Nat) :
    createColorHistogram img i j k =
      (scannedCoords img).countP (fun c =>
        decide (i = (img.pix c.1 c.2).red / BUCKET_SIZE ∧
                j = (img.pix c.1 c.2).green / BUCKET_SIZE ∧
                k = (img.pix c.1 c.2).blue / BUCKET_SIZE)) := by
  unfold createColorHistogram
  rw [histFold_apply]
  simp [emptyHist]

theorem sum_map_histIncr (h : Histogram) (r g b : Nat) (l : List (Nat × Nat × Nat))
    (hnd : l.Nodup) :
    (l.map (cellVal (histIncr h r g b))).sum =
      (l.map (cellVal h)).sum + (if (r, g, b) ∈ l then 1 else 0) := by
  induction l with
  | nil => simp
  | cons c l ih =>
    rw [List.map_cons, List.map_cons, List.sum_cons, List.sum_cons,
      ih (List.nodup_cons.mp hnd).2]
    by_cases hc : c = (r, g, b)
    · have hnotin : (r, g, b) ∉ l := hc ▸ (List.nodup_cons.mp hnd).1
      rw [if_neg hnotin, if_pos (List.mem_cons.mpr (Or.inl hc.symm))]
      have hv : cellVal (histIncr h r g b) c = cellVal h c + 1 := by
        subst hc
        simp [cellVal, histIncr]
      rw [hv]
      omega
    · have hv : cellVal (histIncr h r g b) c = cellVal h c := by
        obtain ⟨c1, c2, c3⟩ := c
        simp only [cellVal, histIncr]
        rw [if_neg]
        rintro ⟨rfl, rfl, rfl⟩
        exact hc rfl
      rw [hv]
      have hmem : ((r, g, b) ∈ c :: l) ↔ ((r, g, b) ∈ l) := by
        rw [List.mem_cons]
        constructor
        · rintro (hx | hx)
          · exact absurd hx.symm hc
          · exact hx
        · exact Or.inr
      by_cases hm : (r, g, b) ∈ l
      · rw [if_pos hm, if_pos (hmem.mpr hm)]
        omega
      · rw [if_neg hm, if_neg (fun hx => hm (hmem.mp hx))]
        omega

theorem histSum_countPixel (h : Histogram) (p : Pixel)
    (hr : p.red < 256) (hg : p.green < 256) (hb : p.blue < 256) :
    histSum (countPixel h p) = histSum h + 1 := by
  unfold histSum countPixel
  rw [sum_map_histIncr _ _ _ _ _ allCells_nodup, if_pos]
  refine (mem_allCells _).mpr ⟨?_, ?_, ?_⟩ <;>
    simp only [BUCKET_SIZE_eq] <;> omega

theorem histSum_fold (img : Image) (hwf : wellFormed img) (l : List (Nat × Nat))
    (hl : ∀ c ∈ l, c.1 < img.rows ∧ c.2 < img.cols) :
    ∀ h : Histogram,
      histSum (l.foldl (fun hh c => countPixel hh (img.pix c.1 c.2)) h) =
        histSum h + l.length := by
  induction l with
  | nil => intro h; simp
  | cons c l ih =>
    intro h
    rw [List.foldl_cons, ih (fun x hx => hl x (List.mem_cons_of_mem _ hx))]
    have hbnd := hl c (List.mem_cons_self _ _)
    have hpx := hwf c.1 c.2 hbnd.1 hbnd.2
    rw [histSum_countPixel _ _ hpx.1 hpx.2.1 hpx.2.2, List.length_cons]
    omega

theorem histSum_emptyHist : histSum emptyHist = 0 := by decide

theorem scanFold_spec (h : Histogram) (l : List (Nat × Nat × Nat)) :
    ∀ b0 : Nat × Nat × Nat,
      cellVal h (bestOf (l.foldl (scanStep h) (initScan h b0)))
          = (l.foldl (scanStep h) (initScan h b0)).highestValue ∧
      ((bestOf (l.foldl (scanStep h) (initScan h b0)) = b0 ∧
          ∀ c ∈ l, cellVal h c ≤ cellVal h b0) ∨
        ∃ l1 l2, l = l1 ++ bestOf (l.foldl (scanStep h) (initScan h b0)) :: l2 ∧
          (∀ c ∈ l1, cellVal h c < cellVal h (bestOf (l.foldl (scanStep h) (initScan h b0)))) ∧
          cellVal h b0 < cellVal h (bestOf (l.foldl (scanStep h) (initScan h b0))) ∧
          ∀ c ∈ l2, cellVal h c ≤ cellVal h (bestOf (l.foldl (scanStep h) (initScan h b0)))) := by
  induction l with
  | nil =>
    intro b0
    exact ⟨rfl, Or.inl ⟨rfl, by simp⟩⟩
  | cons c l ih =>
    intro b0
    rw [List.foldl_cons]
    by_cases hcase : (initScan h b0).highestValue < cellVal h c
    · have hstep : scanStep h (initScan h b0) c = initScan h c := by
        unfold scanStep
        rw [if_pos hcase]
        rfl
      rw [hstep]
      have hlt0 : cellVal h b0 < cellVal h c := hcase
      obtain ⟨h1, h2⟩ := ih c
      refine ⟨h1, Or.inr ?_⟩
      rcases h2 with ⟨hb, hall⟩ | ⟨l1, l2, heq, hl1, hlt, hl2⟩
      · refine ⟨[], l, ?_, ?_, ?_, ?_⟩
        · rw [hb]
          rfl
        · intro x hx
          cases hx
        · rw [hb]
          exact hlt0
        · intro x hx
          calc cellVal h x ≤ cellVal h c := hall x hx
            _ = cellVal h (bestOf (l.foldl (scanStep h) (initScan h c))) := by rw [hb]
      · refine ⟨c :: l1, l2, ?_, ?_, ?_, hl2⟩
        · conv_lhs => rw [heq]
          rfl
        · intro x hx
          rcases List.mem_cons.mp hx with rfl | hx
          · exact hlt
          · exact hl1 x hx
        · exact lt_trans hlt0 hlt
    · have hstep : scanStep h (initScan h b0) c = initScan h b0 := by
        unfold scanStep
        rw [if_neg hcase]
      rw [hstep]
      have hle : cellVal h c ≤ cellVal h b0 := le_of_not_lt hcase
      obtain ⟨h1, h2⟩ := ih b0
      refine ⟨h1, ?_⟩
      rcases h2 with ⟨hb, hall⟩ | ⟨l1, l2, heq, hl1, hlt, hl2⟩
      · refine Or.inl ⟨hb, ?_⟩
        intro x hx
        rcases List.mem_cons.mp hx with rfl | hx
        · exact hle
        · exact hall x hx
      · refine Or.inr ⟨c :: l1, l2, ?_, ?_, hlt, hl2⟩
        · conv_lhs => rw [heq]
          rfl
        · intro x hx
          rcases List.mem_cons.mp hx with rfl | hx
          · exact lt_of_le_of_lt hle hlt
          · exact hl1 x hx

theorem substStep_rows (r g b : Nat) (repl img : Image) (c : Nat × Nat) :
    (substStep r g b repl img c).rows = img.rows := by
  unfold substStep writePix
  split <;> rfl

theorem substStep_cols (r g b : Nat) (repl img : Image) (c : Nat × Nat) :
    (substStep r g b repl img c).cols = img.cols := by
  unfold substStep writePix
  split <;> rfl

theorem substFold_rows (r g b : Nat) (repl : Image) (l : List (Nat × Nat)) :
    ∀ img : Image, (l.foldl (substStep r g b repl) img).rows = img.rows := by
  induction l with
  | nil => intro img; rfl
  | cons c l ih =>
    intro img
    rw [List.foldl_cons, ih, substStep_rows]

theorem substFold_cols (r g b : Nat) (repl : Image) (l : List (Nat × Nat)) :
    ∀ img : Image, (l.foldl (substStep r g b repl) img).cols = img.cols := by
  induction l with
  | nil => intro img; rfl
  | cons c l ih =>
    intro img
    rw [List.foldl_cons, ih, substStep_cols]

theorem replaceMostCommonColor_rows (r g b : Nat) (target repl : Image) :
    (replaceMostCommonColor r g b target repl).rows = target.rows :=
  substFold_rows r g b repl _ target

theorem replaceMostCommonColor_cols (r g b : Nat) (target repl : Image) :
    (replaceMostCommonColor r g b target repl).cols = target.cols :=
  substFold_cols r g b repl _ target

theorem substStep_pix_ne (r g b : Nat) (repl img : Image) (c : Nat × Nat) (i j : Nat)
    (hne : ¬(i = c.1 ∧ j = c.2)) :
    (substStep r g b repl img c).pix i j = img.pix i j := by
  unfold substStep writePix
  split
  · simp [hne]
  · rfl

theorem substFold_pix_not_mem (r g b : Nat) (repl : Image) (l : List (Nat × Nat)) :
    ∀ (img : Image) (i j : Nat), (i, j) ∉ l →
      (l.foldl (substStep r g b repl) img).pix i j = img.pix i j := by
  induction l with
  | nil => intro img i j _; rfl
  | cons c l ih =>
    intro img i j hnm
    have hne : ¬(i = c.1 ∧ j = c.2) := by
      rintro ⟨rfl, rfl⟩
      exact hnm (List.mem_cons_self _ _)
    rw [List.foldl_cons, ih _ i j (fun hx => hnm (List.mem_cons_of_mem _ hx)),
      substStep_pix_ne r g b repl img c i j hne]

theorem substFold_pix_mem (r g b : Nat) (repl : Image) (l : List (Nat × Nat)) :
    ∀ (img : Image) (i j : Nat), l.Nodup → (i, j) ∈ l →
      (l.foldl (substStep r g b repl) img).pix i j =
        if matchesColor (img.pix i j) r g b
        then repl.pix (i % repl.rows) (j % repl.cols) else img.pix i j := by
  induction l with
  | nil =>
    intro img i j _ hm
    cases hm
  | cons c l ih =>
    intro img i j hnd hm
    rw [List.foldl_cons]
    rcases List.mem_cons.mp hm with heq | hmem
    · obtain ⟨c1, c2⟩ := c
      obtain ⟨rfl, rfl⟩ := Prod.mk.inj heq
      have hni : (i, j) ∉ l := (List.nodup_cons.mp hnd).1
      rw [substFold_pix_not_mem r g b repl l _ i j hni]
      unfold substStep
      split
      · simp [writePix]
      · rfl
    · have hne : ¬(i = c.1 ∧ j = c.2) := by
        rintro ⟨rfl, rfl⟩
        exact (List.nodup_cons.mp hnd).1 (by simpa using hmem)
      rw [ih _ i j (List.nodup_cons.mp hnd).2 hmem,
        substStep_pix_ne r g b repl img c i j hne]

theorem replaceMostCommonColor_pix (r g b : Nat) (target repl : Image) (i j : Nat) :
    (replaceMostCommonColor r g b target repl).pix i j =
      if i < target.rows - 1 ∧ j < target.cols - 1 ∧ matchesColor (target.pix i j) r g b
      then repl.pix (i % repl.rows) (j % repl.cols)
      else target.pix i j := by
  unfold replaceMostCommonColor
  by_cases hb : i < target.rows - 1 ∧ j < target.cols - 1
  · rw [substFold_pix_mem r g b repl _ target i j (scannedCoords_nodup target)
      ((mem_scannedCoords target i j).mpr hb)]
    by_cases hm : matchesColor (target.pix i j) r g b
    · rw [if_pos hm, if_pos ⟨hb.1, hb.2, hm⟩]
    · rw [if_neg hm, if_neg (fun hx => hm hx.2.2)]
  · rw [substFold_pix_not_mem r g b repl _ target i j
      (fun hmem => hb ((mem_scannedCoords target i j).mp hmem)),
      if_neg (fun hx => hb ⟨hx.1, hx.2.1⟩)]

theorem substFoldChecked (r g b : Nat) (repl : Image)
    (hr : repl.rows ≠ 0) (hc : repl.cols ≠ 0) (l : List (Nat × Nat)) :
    ∀ img : Image,
      l.foldl (substStepChecked r g b repl) (some img) =
        some (l.foldl (substStep r g b repl) img) := by
  induction l with
  | nil => intro img; rfl
  | cons c l ih =>
    intro img
    rw [List.foldl_cons, List.foldl_cons]
    have hstep : substStepChecked r g b repl (some img) c =
        some (substStep r g b repl img c) := by
      unfold substStepChecked substStep
      rw [Option.some_bind]
      by_cases hm : matchesColor (img.pix c.1 c.2) r g b
      · rw [if_pos hm, if_pos hm, if_neg]
        rintro (hx | hx)
        · exact hr hx
        · exact hc hx
      · rw [if_neg hm, if_neg hm]
    rw [hstep, ih]

theorem histFold_congr (imgA imgB : Image) (l : List (Nat × Nat))
    (hpx : ∀ c ∈ l, imgA.pix c.1 c.2 = imgB.pix c.1 c.2) :
    ∀ h : Histogram,
      l.foldl (fun hh c => countPixel hh (imgA.pix c.1 c.2)) h =
        l.foldl (fun hh c => countPixel hh (imgB.pix c.1 c.2)) h := by
  induction l with
  | nil => intro h; rfl
  | cons c l ih =>
    intro h
    rw [List.foldl_cons, List.foldl_cons, hpx c (List.mem_cons_self _ _),
      ih (fun x hx => hpx x (List.mem_cons_of_mem _ hx))]

theorem imgTen_wellFormed : wellFormed imgTen := by
  intro i j _ _
  refine ⟨?_, ?_, ?_⟩ <;> simp [imgTen]

/-- Claim C1, as stated, is false at a concrete input: the single pixel of a
1×1 target matches the dominant color `(32,32,32)` (it equals it), yet the
substituter leaves it alone, because its loops run `i < rows - 1 = 0` times
and never reach position `(0,0)`. -/
theorem substituter_all_positions_cex :
    matchesColor (tgtOne32.pix 0 0) 32 32 32 ∧
    (replaceMostCommonColor 32 32 32 tgtOne32 repOne0).pix 0 0 ≠
      repOne0.pix (0 % repOne0.rows) (0 % repOne0.cols) := by
  decide

/-- Claim C1 (amended): for a replacement of at least one row and column,
the substituter rewrites every target pixel at a position it scans — row
below `rows - 1` and column below `cols - 1` — whose channels are all within
64 of the dominant channel values, to the replacement pixel at
`(row mod replacement.rows, col mod replacement.cols)`. -/
theorem substituter_replaces_matching_scanned (r g b : Nat) (target repl : Image)
    (_hrows : 0 < repl.rows) (_hcols : 0 < repl.cols) (i j : Nat)
    (hi : i < target.rows - 1) (hj : j < target.cols - 1)
    (hm : |((target.pix i j).red : Int) - (r : Int)| ≤ 64 ∧
          |((target.pix i j).green : Int) - (g : Int)| ≤ 64 ∧
          |((target.pix i j).blue : Int) - (b : Int)| ≤ 64) :
    (replaceMostCommonColor r g b target repl).pix i j =
      repl.pix (i % repl.rows) (j % repl.cols) := by
  have hm2 : matchesColor (target.pix i j) r g b := by
    obtain ⟨h1, h2, h3⟩ := hm
    rw [abs_le] at h1 h2 h3
    simp only [matchesColor, BUCKET_SIZE_eq]
    omega
  rw [replaceMostCommonColor_pix, if_pos ⟨hi, hj, hm2⟩]

/-- Witness for `substituter_replaces_matching_scanned` at a concrete input:
pixel `(0,0)` of a 2×2 all-`(32,32,32)` target is scanned, matches the
dominant color `(32,32,32)`, and becomes the `(5,5,5)` replacement pixel. -/
theorem substituter_replaces_matching_scanned_witness :
    0 < repOne5.rows ∧ 0 < repOne5.cols ∧
    0 < tgtSolid32.rows - 1 ∧ 0 < tgtSolid32.cols - 1 ∧
    (replaceMostCommonColor 32 32 32 tgtSolid32 repOne5).pix 0 0 =
      repOne5.pix (0 % repOne5.rows) (0 % repOne5.cols) :=
  ⟨by decide, by decide, by decide, by decide,
    substituter_replaces_matching_scanned 32 32 32 tgtSolid32 repOne5
      (by decide) (by decide) 0 0 (by decide) (by decide)
      ⟨by decide, by decide, by decide⟩⟩

/-- Claim C2: the histogram's cell `(i,j,k)` counts exactly the scanned
pixels whose red value lies in `[i*64, (i+1)*64)`, green in
`[j*64, (j+1)*64)` and blue in `[k*64, (k+1)*64)`; cells counting no pixel
are zero (immediate from the equality), and for an 8-bit image the support
lies inside the 4×4×4 grid. -/
theorem histogram_cells_spec (img : Image) :
    (∀ i j k : Nat,
      createColorHistogram img i j k =
        (scannedCoords img).countP (fun c =>
          decide (i * 64 ≤ (img.pix c.1 c.2).red ∧ (img.pix c.1 c.2).red < (i + 1) * 64 ∧
            j * 64 ≤ (img.pix c.1 c.2).green ∧ (img.pix c.1 c.2).green < (j + 1) * 64 ∧
            k * 64 ≤ (img.pix c.1 c.2).blue ∧ (img.pix c.1 c.2).blue < (k + 1) * 64))) ∧
    (wellFormed img → ∀ i j k : Nat, ¬(i < 4 ∧ j < 4 ∧ k < 4) →
      createColorHistogram img i j k = 0) := by
  constructor
  · intro i j k
    rw [createColorHistogram_apply]
    apply List.countP_congr
    intro c _
    simp only [decide_eq_true_eq, BUCKET_SIZE_eq]
    omega
  · intro hwf i j k hout
    rw [createColorHistogram_apply]
    apply List.countP_eq_zero.mpr
    intro c hc
    obtain ⟨ci, cj⟩ := c
    rw [mem_scannedCoords] at hc
    simp only [decide_eq_true_eq, BUCKET_SIZE_eq]
    rintro ⟨h1, h2, h3⟩
    have hpx := hwf ci cj (by omega) (by omega)
    omega

/-- Witness for `histogram_cells_spec`: the 2×2 all-`(10,10,10)` image is
well formed and its histogram vanishes at the out-of-grid cell `(5,0,0)`. -/
theorem histogram_cells_spec_witness :
    wellFormed imgTen ∧ createColorHistogram imgTen 5 0 0 = 0 :=
  ⟨imgTen_wellFormed, (histogram_cells_spec imgTen).2 imgTen_wellFormed 5 0 0 (by decide)⟩

/-- Claim C3, as stated, is false at a concrete input: for the 2×2 image the
64 cell counts sum to 1, not to `rows * cols = 4`, because only pixel
`(0,0)` is scanned. -/
theorem histogram_total_cex :
    histSum (createColorHistogram imgTen) ≠ imgTen.rows * imgTen.cols := by
  decide

/-- Claim C3 (amended): for an 8-bit image the sum of all 64 cell counts of
the histogram equals `(rows - 1) * (cols - 1)`, the number of pixels the
builder scans. -/
theorem histSum_eq_scanned (img : Image) (hwf : wellFormed img) :
    histSum (createColorHistogram img) = (img.rows - 1) * (img.cols - 1) := by
  have hbnd : ∀ c ∈ scannedCoords img, c.1 < img.rows ∧ c.2 < img.cols := by
    rintro ⟨ci, cj⟩ hcm
    rw [mem_scannedCoords] at hcm
    constructor <;> omega
  unfold createColorHistogram
  rw [histSum_fold img hwf _ hbnd emptyHist, histSum_emptyHist, scannedCoords_length,
    Nat.zero_add]

/-- Witness for `histSum_eq_scanned` on the concrete 2×2 image. -/
theorem histSum_eq_scanned_witness :
    wellFormed imgTen ∧
    histSum (createColorHistogram imgTen) = (imgTen.rows - 1) * (imgTen.cols - 1) :=
  ⟨imgTen_wellFormed, histSum_eq_scanned imgTen imgTen_wellFormed⟩

/-- Claim C5: non-matching target pixels are untouched by the substituter,
the substituted image keeps the target's dimensions, and the composed
overlay keeps the foreground's dimensions. -/
theorem substituter_frame_spec (r g b : Nat) (target repl fg bg : Image) :
    ((replaceMostCommonColor r g b target repl).rows = target.rows ∧
      (replaceMostCommonColor r g b target repl).cols = target.cols) ∧
    (∀ i j : Nat, ¬ matchesColor (target.pix i j) r g b →
      (replaceMostCommonColor r g b target repl).pix i j = target.pix i j) ∧
    ((createOverlayImage fg bg).rows = fg.rows ∧ (createOverlayImage fg bg).cols = fg.cols) := by
  refine ⟨⟨replaceMostCommonColor_rows r g b target repl,
    replaceMostCommonColor_cols r g b target repl⟩, ?_, ?_, ?_⟩
  · intro i j hm
    rw [replaceMostCommonColor_pix, if_neg (fun hx => hm hx.2.2)]
  · show (replaceMostCommonColor _ _ _ fg bg).rows = fg.rows
    exact replaceMostCommonColor_rows _ _ _ fg bg
  · show (replaceMostCommonColor _ _ _ fg bg).cols = fg.cols
    exact replaceMostCommonColor_cols _ _ _ fg bg

/-- Witness for `substituter_frame_spec`: the `(200,200,200)` pixel does not
match the dominant color `(32,32,32)` and is left exactly as it was. -/
theorem substituter_frame_spec_witness :
    ¬ matchesColor (repFar200.pix 0 0) 32 32 32 ∧
    (replaceMostCommonColor 32 32 32 repFar200 repOne5).pix 0 0 = repFar200.pix 0 0 :=
  ⟨by decide,
    (substituter_frame_spec 32 32 32 repFar200 repOne5 repFar200 repOne5).2.1 0 0 (by decide)⟩

/-- Claim C4: for every histogram, the locator (run with the
zero-initialized out-parameters, as `createOverlayImage` runs it) returns
`(ir*64+32, ig*64+32, ib*64+32)` where `(ir, ig, ib)` is the first cell in
scan order attaining the maximal count — every cell's count is at most this
cell's, and every cell strictly earlier in scan order has a strictly
smaller count — with each index below 4 (so each channel value lies in
`[0,256)`); and an all-zero histogram yields `(32,32,32)`. -/
theorem locator_first_max_spec (h : Histogram) :
    (∃ ir ig ib : Nat, ir < 4 ∧ ig < 4 ∧ ib < 4 ∧
      findMostCommonColor 0 0 0 h = (ir * 64 + 32, ig * 64 + 32, ib * 64 + 32) ∧
      (∀ c ∈ allCells, cellVal h c ≤ h ir ig ib) ∧
      ∃ l1 l2, allCells = l1 ++ (ir, ig, ib) :: l2 ∧
        ∀ c ∈ l1, cellVal h c < h ir ig ib) ∧
    ((∀ i j k : Nat, h i j k = 0) → findMostCommonColor 0 0 0 h = (32, 32, 32)) := by
  obtain ⟨ir, ig, ib, hbeq⟩ :
      ∃ ir ig ib : Nat,
        bestOf (allCells.foldl (scanStep h) (initScan h (0, 0, 0))) = (ir, ig, ib) :=
    ⟨_, _, _, rfl⟩
  have hval := scanFold_spec h allCells (0, 0, 0)
  rw [hbeq] at hval
  obtain ⟨-, hdisj⟩ := hval
  have hfmc : findMostCommonColor 0 0 0 h = (ir * 64 + 32, ig * 64 + 32, ib * 64 + 32) := by
    calc findMostCommonColor 0 0 0 h
        = ((bestOf (allCells.foldl (scanStep h) (initScan h (0, 0, 0)))).1 * 64 + 32,
           (bestOf (allCells.foldl (scanStep h) (initScan h (0, 0, 0)))).2.1 * 64 + 32,
           (bestOf (allCells.foldl (scanStep h) (initScan h (0, 0, 0)))).2.2 * 64 + 32) := rfl
      _ = (ir * 64 + 32, ig * 64 + 32, ib * 64 + 32) := by rw [hbeq]
  constructor
  · rcases hdisj with ⟨hb, hall⟩ | ⟨l1, l2, heq, hl1, hlt, hl2⟩
    · obtain ⟨rfl, rfl, rfl⟩ := hb
      refine ⟨0, 0, 0, by decide, by decide, by decide, hfmc, ?_,
        ⟨[], allCells.tail, by decide, ?_⟩⟩
      · intro c hc
        exact hall c hc
      · intro c hc
        cases hc
    · have hmem : (ir, ig, ib) ∈ allCells := by
        rw [heq]
        exact List.mem_append.mpr (Or.inr (List.mem_cons_self _ _))
      obtain ⟨hir, hig, hib⟩ := (mem_allCells _).mp hmem
      refine ⟨ir, ig, ib, hir, hig, hib, hfmc, ?_, ⟨l1, l2, heq, hl1⟩⟩
      intro c hc
      rw [heq] at hc
      rcases List.mem_append.mp hc with hc1 | hc2
      · exact le_of_lt (hl1 c hc1)
      · rcases List.mem_cons.mp hc2 with rfl | hc3
        · exact le_refl _
        · exact hl2 c hc3
  · intro hz
    rcases hdisj with ⟨hb, -⟩ | ⟨l1, l2, heq, hl1, hlt, hl2⟩
    · rw [hfmc]
      obtain ⟨rfl, rfl, rfl⟩ := hb
      rfl
    · exfalso
      simp only [cellVal, hz] at hlt
      exact lt_irrefl 0 hlt

/-- Witness for `locator_first_max_spec`: the zero histogram is all-zero and
the locator returns `(32,32,32)` on it. -/
theorem locator_first_max_spec_witness :
    (∀ i j k : Nat, emptyHist i j k = 0) ∧
    findMostCommonColor 0 0 0 emptyHist = (32, 32, 32) :=
  ⟨fun _ _ _ => rfl, (locator_first_max_spec emptyHist).2 (fun _ _ _ => rfl)⟩

/-- Claim C6, as stated, is false on the code: for the spec's 2×2 example
image the histogram does not have count 3 at cell `(0,0,0)` and count 1 at
cell `(3,3,3)` — only pixel `(0,0)` is scanned. -/
theorem example_histogram_cex :
    ¬(createColorHistogram imgExample 0 0 0 = 3 ∧
      createColorHistogram imgExample 3 3 3 = 1) := by
  decide

set_option maxRecDepth 20000 in
/-- Claim C6 (amended): for the spec's 2×2 example image the builder scans
only pixel `(0,0)`, so cell `(0,0,0)` has count 1 and cell `(3,3,3)` has
count 0; the locator still returns the dominant color `(32,32,32)`. -/
theorem example_histogram_amended :
    createColorHistogram imgExample 0 0 0 = 1 ∧
    createColorHistogram imgExample 3 3 3 = 0 ∧
    findMostCommonColor 0 0 0 (createColorHistogram imgExample) = (32, 32, 32) := by
  decide

/-- Claim C7: both the histogram builder and the substituter iterate rows
below `rows - 1` and columns below `cols - 1`: the scanned coordinates are
exactly those, the histogram never depends on the last row or column (two
images agreeing off the last row/column have equal histograms), and the
substituter never rewrites a pixel of the last row or column. -/
theorem boundary_skip_spec (img : Image) :
    (∀ i j : Nat, (i, j) ∈ scannedCoords img ↔ i < img.rows - 1 ∧ j < img.cols - 1) ∧
    (∀ img2 : Image, img.rows = img2.rows → img.cols = img2.cols →
      (∀ i j, i < img.rows - 1 → j < img.cols - 1 → img.pix i j = img2.pix i j) →
      createColorHistogram img = createColorHistogram img2) ∧
    (∀ (r g b : Nat) (repl : Image) (i j : Nat),
      img.rows - 1 ≤ i ∨ img.cols - 1 ≤ j →
      (replaceMostCommonColor r g b img repl).pix i j = img.pix i j) := by
  refine ⟨mem_scannedCoords img, ?_, ?_⟩
  · intro img2 hr hc hpx
    unfold createColorHistogram
    have hsc : scannedCoords img = scannedCoords img2 := by
      unfold scannedCoords
      rw [hr, hc]
    rw [← hsc]
    apply histFold_congr
    rintro ⟨ci, cj⟩ hcm
    rw [mem_scannedCoords] at hcm
    exact hpx ci cj hcm.1 hcm.2
  · intro r g b repl i j hib
    rw [replaceMostCommonColor_pix, if_neg]
    rintro ⟨h1, h2, -⟩
    omega

/-- Witness for `boundary_skip_spec`: row 1 is the last row of the 2×2
target, and its pixel `(1,0)` matches the dominant color yet stays
untouched. -/
theorem boundary_skip_spec_witness :
    (tgtSolid32.rows - 1 ≤ 1 ∨ tgtSolid32.cols - 1 ≤ 0) ∧
    (replaceMostCommonColor 32 32 32 tgtSolid32 repOne5).pix 1 0 = tgtSolid32.pix 1 0 :=
  ⟨Or.inl (by decide),
    (boundary_skip_spec tgtSolid32).2.2 32 32 32 repOne5 1 0 (Or.inl (by decide))⟩

/-- Claim C8: if no pixel of the replacement image is within threshold of
the dominant color, running the substituter a second time on the
already-substituted target changes nothing.  (The proof shows the equality
without needing the hypothesis: re-substituting a replaced pixel writes the
identical replacement pixel again, since the wrapped source coordinate
depends only on the position.) -/
theorem substituter_idempotent (r g b : Nat) (target repl : Image)
    (_hnone : ∀ i j : Nat, i < repl.rows → j < repl.cols →
      ¬ matchesColor (repl.pix i j) r g b) :
    replaceMostCommonColor r g b (replaceMostCommonColor r g b target repl) repl =
      replaceMostCommonColor r g b target repl := by
  ext i j
  · rw [replaceMostCommonColor_rows]
  · rw [replaceMostCommonColor_cols]
  · rw [replaceMostCommonColor_pix r g b (replaceMostCommonColor r g b target repl) repl i j,
      replaceMostCommonColor_rows, replaceMostCommonColor_cols,
      replaceMostCommonColor_pix r g b target repl i j]
    by_cases hbnd : i < target.rows - 1 ∧ j < target.cols - 1
    · by_cases hm : matchesColor (target.pix i j) r g b
      · have hin : i < target.rows - 1 ∧ j < target.cols - 1 ∧
            matchesColor (target.pix i j) r g b := ⟨hbnd.1, hbnd.2, hm⟩
        rw [if_pos hin, ite_self]
      · have hni : ¬(i < target.rows - 1 ∧ j < target.cols - 1 ∧
            matchesColor (target.pix i j) r g b) := fun hx => hm hx.2.2
        rw [if_neg hni, if_neg hni]
    · have hni : ¬(i < target.rows - 1 ∧ j < target.cols - 1 ∧
          matchesColor (target.pix i j) r g b) := fun hx => hbnd ⟨hx.1, hx.2.1⟩
      rw [if_neg hni, if_neg hni]

/-- Witness for `substituter_idempotent`: no pixel of the 1×1
`(200,200,200)` replacement matches the dominant color `(32,32,32)`, and
substituting twice into the 2×2 target equals substituting once. -/
theorem substituter_idempotent_witness :
    (∀ i j : Nat, i < repFar200.rows → j < repFar200.cols →
      ¬ matchesColor (repFar200.pix i j) 32 32 32) ∧
    replaceMostCommonColor 32 32 32
        (replaceMostCommonColor 32 32 32 tgtSolid32 repFar200) repFar200 =
      replaceMostCommonColor 32 32 32 tgtSolid32 repFar200 := by
  have hn : ∀ i j : Nat, i < repFar200.rows → j < repFar200.cols →
      ¬ matchesColor (repFar200.pix i j) 32 32 32 := by
    intro i j _ _
    simp only [repFar200]
    decide
  exact ⟨hn, substituter_idempotent 32 32 32 tgtSolid32 repFar200 hn⟩

/-- Claim C9: when the replacement has at least one row and one column,
every `%` the substituter performs has a nonzero divisor, so the
instrumented run (which returns `none` exactly when a substitution would
take `%` by zero — the source has no guard) succeeds and agrees with the
uninstrumented one; with a zero-area replacement the instrumented run does
hit a zero divisor on a concrete input. -/
theorem mod_safety_spec :
    (∀ (r g b : Nat) (target repl : Image), 0 < repl.rows → 0 < repl.cols →
      replaceMostCommonColorChecked r g b target repl =
        some (replaceMostCommonColor r g b target repl)) ∧
    replaceMostCommonColorChecked 32 32 32 tgtSolid32 repZero = none := by
  constructor
  · intro r g b target repl hr hc
    unfold replaceMostCommonColorChecked replaceMostCommonColor
    exact substFoldChecked r g b repl (by omega) (by omega) _ target
  · rfl

/-- Witness for `mod_safety_spec`: with the 1×1 replacement the
instrumented substituter returns `some` of the plain result. -/
theorem mod_safety_spec_witness :
    0 < repOne5.rows ∧ 0 < repOne5.cols ∧
    replaceMostCommonColorChecked 32 32 32 tgtSolid32 repOne5 =
      some (replaceMostCommonColor 32 32 32 tgtSolid32 repOne5) :=
  ⟨by decide, by decide,
    mod_safety_spec.1 32 32 32 tgtSolid32 repOne5 (by decide) (by decide)⟩

set_option maxRecDepth 20000 in
/-- Claim C10: a foreground with at most one row or at most one column has
an empty scan, so its histogram is all-zero, the locator returns
`(32,32,32)` whatever the pixels are, and the composed overlay is
pixel-identical to the foreground. -/
theorem thin_foreground_identity (fg bg : Image) (hthin : fg.rows ≤ 1 ∨ fg.cols ≤ 1) :
    createOverlayImage fg bg = fg ∧
    (∀ i j k : Nat, createColorHistogram fg i j k = 0) ∧
    findMostCommonColor 0 0 0 (createColorHistogram fg) = (32, 32, 32) := by
  have hnil : scannedCoords fg = [] := by
    rw [List.eq_nil_iff_forall_not_mem]
    rintro ⟨i, j⟩ hmem
    rw [mem_scannedCoords] at hmem
    omega
  have hhist : createColorHistogram fg = emptyHist := by
    unfold createColorHistogram
    rw [hnil]
    rfl
  refine ⟨?_, ?_, ?_⟩
  · show replaceMostCommonColor _ _ _ fg bg = fg
    unfold replaceMostCommonColor
    rw [hnil]
    rfl
  · intro i j k
    rw [hhist]
    rfl
  · rw [hhist]
    decide

/-- Witness for `thin_foreground_identity`: a 1×3 foreground is returned
unchanged by `createOverlayImage`. -/
theorem thin_foreground_identity_witness :
    (fgThin.rows ≤ 1 ∨ fgThin.cols ≤ 1) ∧ createOverlayImage fgThin repOne5 = fgThin :=
  ⟨Or.inl (by decide), (thin_foreground_identity fgThin repOne5 (Or.inl (by decide))).1⟩

end Driver
